import Mathlib

/-!
Verification of the godex streaming event pipeline.

This file gives a shallow embedding of the core of the godex Go SDK
(the Codex CLI client library): the envelope decoder (`decode.go`), the
stream lifecycle coordinator (`Stream` in `structured_output.go`'s
companion and the `Thread` producer goroutine), the synchronous callback
dispatcher (`items.go`), the structured-output extractor
(`structured_output.go`) and input normalization (`input.go`).

Modelling conventions:
* Go errors become the inductive `Godex.GoError`; `nil` errors are
  `Option.none`.
* A JSON line is modelled post-parse as `Godex.RawLine`: a record holding
  the discriminant string and every field any recognized variant reads,
  with Go zero values as defaults.  Malformed-JSON failures are outside
  the model; discriminant handling (the content of the decoder) is exact.
* Channels become explicit lists of delivered values; the producer
  goroutine and the consumer loops become folds over those lists.  The
  model describes the drained, uncancelled executions (cancellation and
  the non-blocking drop branches are real concurrency and are outside
  the shallow embedding).
* `json.Unmarshal` into a caller-supplied type `T` is abstracted as a
  function `decT : String -> Option T` supplied as a parameter.
-/

namespace Godex

/-! ### Data model (items.go, events) -/

/-- Usage carries the token counters attached to `turn.completed`. -/
structure Usage where
  inputTokens : Int := 0
  cachedInputTokens : Int := 0
  outputTokens : Int := 0
deriving DecidableEq, Repr

/-- ThreadError is the fatal-error payload of `turn.failed`. -/
structure ThreadError where
  message : String := ""
deriving DecidableEq, Repr

/-- FileUpdateChange is a single per-file edit inside a file-change item. -/
structure FileUpdateChange where
  path : String := ""
  kind : String := ""
deriving DecidableEq, Repr

/-- TodoItem is one entry of a todo-list item. -/
structure TodoItem where
  text : String := ""
  completed : Bool := false
deriving DecidableEq, Repr

/-- AgentMessageItem carries the model's response text. -/
structure AgentMessageItem where
  id : String := ""
  type : String := ""
  text : String := ""
deriving DecidableEq, Repr

/-- ReasoningItem carries intermediate reasoning text. -/
structure ReasoningItem where
  id : String := ""
  type : String := ""
  text : String := ""
deriving DecidableEq, Repr

/-- CommandExecutionItem captures a command run by the agent. -/
structure CommandExecutionItem where
  id : String := ""
  type : String := ""
  command : String := ""
  aggregatedOutput : String := ""
  exitCode : Option Int := none
  status : String := ""
deriving DecidableEq, Repr

/-- FileChangeItem aggregates the per-file edits of one patch. -/
structure FileChangeItem where
  id : String := ""
  type : String := ""
  changes : List FileUpdateChange := []
  status : String := ""
deriving DecidableEq, Repr

/-- McpToolCallItem tracks one MCP tool invocation. -/
structure McpToolCallItem where
  id : String := ""
  type : String := ""
  server : String := ""
  tool : String := ""
  status : String := ""
deriving DecidableEq, Repr

/-- WebSearchItem records a web search by the agent. -/
structure WebSearchItem where
  id : String := ""
  type : String := ""
  query : String := ""
deriving DecidableEq, Repr

/-- TodoListItem tracks the agent's task list. -/
structure TodoListItem where
  id : String := ""
  type : String := ""
  items : List TodoItem := []
deriving DecidableEq, Repr

/-- ErrorItem is a non-fatal error reported as an item. -/
structure ErrorItem where
  id : String := ""
  type : String := ""
  message : String := ""
deriving DecidableEq, Repr

/-- ThreadItem is the closed union behind Go's `ThreadItem` interface. -/
inductive ThreadItem where
  | agentMessage (item : AgentMessageItem)
  | reasoning (item : ReasoningItem)
  | commandExecution (item : CommandExecutionItem)
  | fileChange (item : FileChangeItem)
  | mcpToolCall (item : McpToolCallItem)
  | webSearch (item : WebSearchItem)
  | todoList (item : TodoListItem)
  | error (item : ErrorItem)
deriving DecidableEq, Repr

/-- ThreadStartedEvent announces the thread identifier. -/
structure ThreadStartedEvent where
  type : String := ""
  threadId : String := ""
deriving DecidableEq, Repr

/-- TurnStartedEvent marks the start of a turn. -/
structure TurnStartedEvent where
  type : String := ""
deriving DecidableEq, Repr

/-- TurnCompletedEvent marks successful completion and carries usage. -/
structure TurnCompletedEvent where
  type : String := ""
  usage : Usage := {}
deriving DecidableEq, Repr

/-- TurnFailedEvent marks a failed turn. -/
structure TurnFailedEvent where
  type : String := ""
  error : ThreadError := {}
deriving DecidableEq, Repr

/-- ItemStartedEvent wraps a freshly created item. -/
structure ItemStartedEvent where
  type : String := ""
  item : ThreadItem
deriving DecidableEq, Repr

/-- ItemUpdatedEvent wraps an item in an intermediate state. -/
structure ItemUpdatedEvent where
  type : String := ""
  item : ThreadItem
deriving DecidableEq, Repr

/-- ItemCompletedEvent wraps an item that reached a terminal state. -/
structure ItemCompletedEvent where
  type : String := ""
  item : ThreadItem
deriving DecidableEq, Repr

/-- ThreadErrorEvent is a stream-level fatal error event. -/
structure ThreadErrorEvent where
  type : String := ""
  message : String := ""
deriving DecidableEq, Repr

/-- ThreadEvent is the closed union behind Go's `ThreadEvent` interface. -/
inductive ThreadEvent where
  | threadStarted (e : ThreadStartedEvent)
  | turnStarted (e : TurnStartedEvent)
  | turnCompleted (e : TurnCompletedEvent)
  | turnFailed (e : TurnFailedEvent)
  | itemStarted (e : ItemStartedEvent)
  | itemUpdated (e : ItemUpdatedEvent)
  | itemCompleted (e : ItemCompletedEvent)
  | threadError (e : ThreadErrorEvent)
deriving DecidableEq, Repr

/-! ### Raw lines and the two-stage decoder (decode.go) -/

/-- RawItem is the post-JSON-parse view of the nested `item` payload: the
discriminant plus every field any item variant decodes, defaulting to Go
zero values when absent. -/
structure RawItem where
  type : String := ""
  id : String := ""
  text : String := ""
  message : String := ""
  command : String := ""
  aggregatedOutput : String := ""
  exitCode : Option Int := none
  status : String := ""
  server : String := ""
  tool : String := ""
  query : String := ""
  changes : List FileUpdateChange := []
  items : List TodoItem := []
deriving DecidableEq, Repr

/-- RawLine is the post-JSON-parse view of one protocol line: the top-level
discriminant plus every field any event variant decodes. `item` is `none`
when the line has no `item` field (a nil `json.RawMessage` in Go). -/
structure RawLine where
  type : String := ""
  threadId : String := ""
  usage : Usage := {}
  errorMessage : String := ""
  message : String := ""
  item : Option RawItem := none
deriving DecidableEq, Repr

/-- DecodeError mirrors the error results of `decode.go`; each unknown
discriminant is carried verbatim. -/
inductive DecodeError where
  | unknownEventType (t : String)
  | unknownItemType (t : String)
  | itemEnvelope
  | itemEventWrap (eventType : String) (inner : DecodeError)
  | invalidItemEventType
deriving DecidableEq, Repr

/-- decodeThreadItem resolves the nested item discriminant
(`decode.go:decodeThreadItem`); a `none` payload is the nil
`json.RawMessage` whose envelope decode fails. -/
def decodeThreadItem : Option RawItem → Except DecodeError ThreadItem
  | none => .error .itemEnvelope
  | some r =>
    if r.type = "agent_message" then
      .ok (.agentMessage { id := r.id, type := r.type, text := r.text })
    else if r.type = "reasoning" then
      .ok (.reasoning { id := r.id, type := r.type, text := r.text })
    else if r.type = "command_execution" then
      .ok (.commandExecution
        { id := r.id, type := r.type, command := r.command,
          aggregatedOutput := r.aggregatedOutput, exitCode := r.exitCode, status := r.status })
    else if r.type = "file_change" then
      .ok (.fileChange { id := r.id, type := r.type, changes := r.changes, status := r.status })
    else if r.type = "mcp_tool_call" then
      .ok (.mcpToolCall
        { id := r.id, type := r.type, server := r.server, tool := r.tool, status := r.status })
    else if r.type = "web_search" then
      .ok (.webSearch { id := r.id, type := r.type, query := r.query })
    else if r.type = "todo_list" then
      .ok (.todoList { id := r.id, type := r.type, items := r.items })
    else if r.type = "error" then
      .ok (.error { id := r.id, type := r.type, message := r.message })
    else
      .error (.unknownItemType r.type)

/-- decodeItemEvent decodes an item-lifecycle event
(`decode.go:decodeItemEvent`); an inner item failure is wrapped with the
event type, as `fmt.Errorf("decode %s item: %w", ...)` does. -/
def decodeItemEvent (line : RawLine) (eventType : String) : Except DecodeError ThreadEvent :=
  match decodeThreadItem line.item with
  | .error e => .error (.itemEventWrap eventType e)
  | .ok item =>
    if eventType = "item.started" then .ok (.itemStarted { type := eventType, item := item })
    else if eventType = "item.updated" then .ok (.itemUpdated { type := eventType, item := item })
    else if eventType = "item.completed" then .ok (.itemCompleted { type := eventType, item := item })
    else .error .invalidItemEventType

/-- decodeThreadEvent is the two-stage decoder of `decode.go`: dispatch on
the top-level discriminant, then build the matching typed variant. -/
def decodeThreadEvent (line : RawLine) : Except DecodeError ThreadEvent :=
  if line.type = "thread.started" then
    .ok (.threadStarted { type := line.type, threadId := line.threadId })
  else if line.type = "turn.started" then
    .ok (.turnStarted { type := line.type })
  else if line.type = "turn.completed" then
    .ok (.turnCompleted { type := line.type, usage := line.usage })
  else if line.type = "turn.failed" then
    .ok (.turnFailed { type := line.type, error := { message := line.errorMessage } })
  else if line.type = "item.started" then decodeItemEvent line "item.started"
  else if line.type = "item.updated" then decodeItemEvent line "item.updated"
  else if line.type = "item.completed" then decodeItemEvent line "item.completed"
  else if line.type = "error" then
    .ok (.threadError { type := line.type, message := line.message })
  else
    .error (.unknownEventType line.type)

/-! ### Errors -/

/-- GoError is the closed set of error values the modelled core produces.
`errorsNew` covers `errors.New`/plain `fmt.Errorf`; the remaining
constructors are the distinguished error types of the SDK. -/
inductive GoError where
  | errorsNew (message : String)
  | threadStream (err : ThreadError)
  | schemaViolation (message : String)
  | noStructuredOutput
  | jsonUnmarshal (text : String)
  | decodeStructuredOutput (inner : GoError)
  | parseEvent (inner : DecodeError)
deriving DecidableEq, Repr

/-- The `Error()` string of a `GoError`.  For `jsonUnmarshal` the concrete
text of Go's json package is not modelled; its message is never inspected
by the code under verification. -/
def GoError.message : GoError → String
  | .errorsNew m => m
  | .threadStream te => te.message
  | .schemaViolation m => if m = "" then "structured output schema violation" else m
  | .noStructuredOutput => "structured output not returned"
  | .jsonUnmarshal t => "invalid json: " ++ t
  | .decodeStructuredOutput inner => "decode structured output: " ++ inner.message
  | .parseEvent _ => "parse event"

/-! ### Stream coordinator (stream.go) -/

/-- StreamState models the mutable core of a `Stream` run handle: the
terminal-error slot, whether the `done` channel has been closed, and
whether a double close of `done` has occurred (a runtime panic in Go). -/
structure StreamState where
  err : Option GoError := none
  doneClosed : Bool := false
  panicked : Bool := false
deriving DecidableEq, Repr

/-- Model of `Stream.setErr`: it stores the error and closes `done`.  The assignment is
unconditional (last write wins), and closing an already-closed `done`
panics, recorded in `panicked`. -/
def Stream.setErr (s : StreamState) (e : Option GoError) : StreamState :=
  { err := e, doneClosed := true, panicked := s.panicked || s.doneClosed }

/-- Model of `Stream.finish`: it defensively records a nil terminal error, but only when
`done` has not been closed yet. -/
def Stream.finish (s : StreamState) : StreamState :=
  if s.doneClosed then s else Stream.setErr s none

/-- Model of `Stream.Wait`: it returns the recorded terminal error once `done` closes. -/
def Stream.wait (s : StreamState) : Option GoError := s.err

/-- Model of `sharedError.set`: it is the guarded set-if-empty cell used by the
structured-output extractor: nil writes are ignored and only the first
non-nil write sticks. -/
def sharedError.set (cur e : Option GoError) : Option GoError :=
  match e with
  | none => cur
  | some _ =>
    match cur with
    | none => e
    | some _ => cur

/-! ### Input normalization (input.go) -/

/-- InputSegment mirrors `input.go`'s segment: exactly one of the two
fields is meant to be populated. -/
structure InputSegment where
  text : String := ""
  localImagePath : String := ""
deriving DecidableEq, Repr

/-- The prompt/images pair produced by `normalizeInput` (the cleanup chain
is a side effect outside the model). -/
structure NormalizedInput where
  prompt : String := ""
  images : List String := []
deriving DecidableEq, Repr

/-- Go's `strings.Join`. -/
def stringsJoin (sep : String) : List String → String
  | [] => ""
  | [x] => x
  | x :: y :: rest => x ++ sep ++ stringsJoin sep (y :: rest)

/-- The indexed segment loop of `normalizeInput`, accumulating prompt
parts and image paths and failing at the first invalid segment. -/
def normalizeInputLoop (i : Nat) (segments : List InputSegment)
    (promptParts images : List String) : Except GoError (List String × List String) :=
  match segments with
  | [] => .ok (promptParts, images)
  | seg :: rest =>
    if seg.text ≠ "" ∧ seg.localImagePath ≠ "" then
      .error (.errorsNew s!"input segment {i} must specify either text or image, not both")
    else if seg.text = "" ∧ seg.localImagePath = "" then
      .error (.errorsNew s!"input segment {i} must specify text or image")
    else if seg.text ≠ "" then
      normalizeInputLoop (i + 1) rest (promptParts ++ [seg.text]) images
    else
      normalizeInputLoop (i + 1) rest promptParts (images ++ [seg.localImagePath])

/-- Model of `normalizeInput` from `input.go`: empty segment lists keep the base
prompt; otherwise text segments joined with a blank line replace it and
image paths are collected in order. -/
def normalizeInput (base : String) (segments : List InputSegment) :
    Except GoError NormalizedInput :=
  if segments.isEmpty then
    .ok { prompt := base, images := [] }
  else
    match normalizeInputLoop 0 segments [] [] with
    | .error e => .error e
    | .ok (promptParts, images) =>
      .ok { prompt := if promptParts.isEmpty then base else stringsJoin "\n\n" promptParts,
            images := images }

/-! ### Thread producer goroutine (thread.go) -/

/-- ProducerState carries the state mutated by the `runStreamed` line
callback: the thread identifier, the pending stream-level error, and the
events forwarded so far (the conduit's delivered contents, in order). -/
structure ProducerState where
  tid : String := ""
  threadErr : Option GoError := none
  forwarded : List ThreadEvent := []
deriving DecidableEq, Repr

/-- The per-line callback handed to the process adapter: decode, update
the thread id on `thread.started` (`Thread.setID`), latch a
`ThreadStreamError` on `error` events, then forward the event. -/
def handleLine (st : ProducerState) (line : RawLine) : Except GoError ProducerState :=
  match decodeThreadEvent line with
  | .error e => .error (.parseEvent e)
  | .ok event =>
    let st :=
      match event with
      | .threadStarted started => { st with tid := started.threadId }
      | _ => st
    let st :=
      match event with
      | .threadError errEvent =>
        { st with threadErr := some (.threadStream { message := errEvent.message }) }
      | _ => st
    .ok { st with forwarded := st.forwarded ++ [event] }

/-- The process adapter's run function over an already-produced list of
output lines (the shape of `codexexec.Runner.Run` and of the test
runner): feed each line to the callback, stop at the first callback
error, otherwise return the adapter's own result `runErr`. -/
def execRun (st : ProducerState) (lines : List RawLine) (runErr : Option GoError) :
    ProducerState × Option GoError :=
  match lines with
  | [] => (st, runErr)
  | l :: rest =>
    match handleLine st l with
    | .error e => (st, some e)
    | .ok st' => execRun st' rest runErr

/-- RunStreamedOutcome is the observable result of a drained streaming
run: the final thread id, the forwarded events, and the stream handle
after the producer goroutine exited. -/
structure RunStreamedOutcome where
  tid : String
  forwarded : List ThreadEvent
  stream : StreamState
deriving DecidableEq, Repr

/-- The producer goroutine of `Thread.runStreamed`: run the adapter, then
record the terminal error once — the latched stream-level error wins over
the adapter's result — with the deferred `finish` running afterwards. -/
def runStreamedGoroutine (initialTid : String) (lines : List RawLine)
    (runErr : Option GoError) : RunStreamedOutcome :=
  let res := execRun { tid := initialTid } lines runErr
  let chosen :=
    match res.1.threadErr with
    | some te => some te
    | none => res.2
  { tid := res.1.tid, forwarded := res.1.forwarded,
    stream := Stream.finish (Stream.setErr {} chosen) }

/-- Model of `Thread.runStreamed`: normalize the input (failures return before any
process is started), then run the producer.  Schema-file creation is IO
and outside the model. -/
def runStreamed (initialTid baseInput : String) (segments : List InputSegment)
    (lines : List RawLine) (runErr : Option GoError) : Except GoError RunStreamedOutcome :=
  match normalizeInput baseInput segments with
  | .error e => .error e
  | .ok _ => .ok (runStreamedGoroutine initialTid lines runErr)

/-! ### Single-shot run loop (thread.go Thread.run) -/

/-- Turn is the aggregate result of a single-shot run. -/
structure RunResult where
  items : List ThreadItem := []
  finalResponse : String := ""
  usage : Option Usage := none
deriving DecidableEq, Repr

/-- The consumer loop of `Thread.run` over the delivered events:
accumulate completed items, remember the last agent-message text and the
usage, break once a turn failure is seen, and return immediately with a
`ThreadStreamError` on a stream-level error event. -/
def runLoop (items : List ThreadItem) (finalMessage : String) (usage : Option Usage) :
    List ThreadEvent →
    Except GoError (List ThreadItem × String × Option Usage × Option ThreadError)
  | [] => .ok (items, finalMessage, usage, none)
  | event :: rest =>
    match event with
    | .itemCompleted e =>
      let finalMessage' :=
        match e.item with
        | .agentMessage m => m.text
        | _ => finalMessage
      runLoop (items ++ [e.item]) finalMessage' usage rest
    | .turnCompleted e => runLoop items finalMessage (some e.usage) rest
    | .turnFailed e => .ok (items, finalMessage, usage, some e.error)
    | .threadError e => .error (.threadStream { message := e.message })
    | _ => runLoop items finalMessage usage rest

/-- Model of `Thread.run`: stream, consume the events, then `Wait`; a recorded
terminal error or a turn failure becomes the returned error. -/
def run (initialTid baseInput : String) (segments : List InputSegment)
    (lines : List RawLine) (runErr : Option GoError) : Except GoError RunResult :=
  match runStreamed initialTid baseInput segments lines runErr with
  | .error e => .error e
  | .ok outcome =>
    match runLoop [] "" none outcome.forwarded with
    | .error e => .error e
    | .ok (items, finalMessage, usage, turnFailure) =>
      match Stream.wait outcome.stream with
      | some e => .error e
      | none =>
        match turnFailure with
        | some tf => .error (.errorsNew tf.message)
        | none => .ok { items := items, finalResponse := finalMessage, usage := usage }

/-! ### Callback dispatcher (callbacks.go) -/

/-- The lifecycle stage tag carried by item callbacks. -/
abbrev StreamItemStage := String

/-- StreamCallbacks records which optional handlers are registered; the
handlers themselves carry no comparable content, so dispatch is the ordered
trace of invocations. -/
structure StreamCallbacks where
  onMessage : Bool := false
  onReasoning : Bool := false
  onCommand : Bool := false
  onPatch : Bool := false
  onFileChange : Bool := false
  onWebSearch : Bool := false
  onToolCall : Bool := false
  onTodoList : Bool := false
  onErrorItem : Bool := false
deriving DecidableEq, Repr

/-- CallbackCall is one synchronous handler invocation together with its
payload, in the order `handleItem` performs them. -/
inductive CallbackCall where
  | onMessage (stage : StreamItemStage) (message : AgentMessageItem)
  | onReasoning (stage : StreamItemStage) (reasoning : ReasoningItem)
  | onCommand (stage : StreamItemStage) (command : CommandExecutionItem)
  | onPatch (stage : StreamItemStage) (patch : FileChangeItem)
  | onFileChange (stage : StreamItemStage) (patch : FileChangeItem) (change : FileUpdateChange)
  | onWebSearch (stage : StreamItemStage) (search : WebSearchItem)
  | onToolCall (stage : StreamItemStage) (toolCall : McpToolCallItem)
  | onTodoList (stage : StreamItemStage) (list : TodoListItem)
  | onErrorItem (stage : StreamItemStage) (error : ErrorItem)
deriving DecidableEq, Repr

/-- Model of `StreamCallbacks.handleItem`: dispatch on the item's variant; a
file-change item first fires the patch handler, then one per-file
callback per listed change, in list order, all with the same stage. -/
def StreamCallbacks.handleItem (c : StreamCallbacks) (stage : StreamItemStage)
    (item : ThreadItem) : List CallbackCall :=
  match item with
  | .agentMessage v => if c.onMessage then [.onMessage stage v] else []
  | .reasoning v => if c.onReasoning then [.onReasoning stage v] else []
  | .commandExecution v => if c.onCommand then [.onCommand stage v] else []
  | .fileChange v =>
    (if c.onPatch then [.onPatch stage v] else []) ++
    (if c.onFileChange then v.changes.map (fun change => .onFileChange stage v change) else [])
  | .mcpToolCall v => if c.onToolCall then [.onToolCall stage v] else []
  | .webSearch v => if c.onWebSearch then [.onWebSearch stage v] else []
  | .todoList v => if c.onTodoList then [.onTodoList stage v] else []
  | .error v => if c.onErrorItem then [.onErrorItem stage v] else []

/-- True exactly for per-file (`OnFileChange`) invocations. -/
def CallbackCall.isFileChangeCall : CallbackCall → Bool
  | .onFileChange _ _ _ => true
  | _ => false

/-- True exactly for patch-level (`OnPatch`) invocations. -/
def CallbackCall.isPatchCall : CallbackCall → Bool
  | .onPatch _ _ => true
  | _ => false

/-! ### Structured output extractor (structured_output.go) -/

/-- A typed snapshot of the structured output. -/
structure RunStreamedJSONUpdate (T : Type) where
  value : T
  raw : String
  final : Bool
deriving DecidableEq

/-- ASCII lowering, the fragment of `strings.ToLower` exercised by the
schema vocabulary check. -/
def strLower (s : String) : String := String.mk (s.data.map Char.toLower)

/-- Substring test over character lists (`strings.Contains`). -/
def charListContains (s sub : List Char) : Bool :=
  match s with
  | [] => sub.isEmpty
  | c :: rest => sub.isPrefixOf (c :: rest) || charListContains rest sub

/-- Go's `strings.Contains`. -/
def strContainsSub (s sub : String) : Bool := charListContains s.data sub.data

/-- Model of `classifyStructuredOutputError`: given the raw error and whether a
schema was supplied or inferred, decide whether to surface a
`SchemaViolationError` (second component true) instead. -/
def classifyStructuredOutputError (err : Option GoError) (expectSchema : Bool) :
    Option GoError × Bool :=
  match err with
  | none => (none, false)
  | some e =>
    if !expectSchema then (none, false)
    else
      match e with
      | .threadStream _ => (none, false)
      | _ =>
        let message := e.message
        if message = "" then (some (.schemaViolation ""), true)
        else
          let lower := strLower message
          if strContainsSub lower "schema" || strContainsSub lower "structured output" ||
              strContainsSub lower "validation" then
            (some (.schemaViolation message), true)
          else (none, false)

/-- Model of `decodeStructuredMessage`: decode the message text into `T`; a final
failure is wrapped as the distinguished decode error, a non-final failure
is returned raw (and swallowed by the caller). -/
def decodeStructuredMessage {T : Type} (decT : String → Option T)
    (msg : AgentMessageItem) (final : Bool) : Except GoError (RunStreamedJSONUpdate T) :=
  match decT msg.text with
  | none =>
    if final then .error (.decodeStructuredOutput (.jsonUnmarshal msg.text))
    else .error (.jsonUnmarshal msg.text)
  | some v => .ok { value := v, raw := msg.text, final := final }

/-- JsonLoopState is the state of the `RunStreamedJSON` forwarding
goroutine: delivered snapshots, re-forwarded raw events, the shared
first-write-wins error cell, and the two completion flags. -/
structure JsonLoopState (T : Type) where
  updates : List (RunStreamedJSONUpdate T) := []
  eventsOut : List ThreadEvent := []
  sharedErr : Option GoError := none
  deliveredFinal : Bool := false
  turnCompleted : Bool := false
deriving DecidableEq

/-- One iteration of the `RunStreamedJSON` goroutine over an incoming
event (the drained execution: snapshot and event sends are delivered
rather than dropped, and the cancellation branches do not fire). -/
def jsonStep {T : Type} (decT : String → Option T) (expectSchema : Bool)
    (st : JsonLoopState T) (event : ThreadEvent) : JsonLoopState T :=
  let st :=
    match event with
    | .itemUpdated e =>
      match e.item with
      | .agentMessage msg =>
        match decodeStructuredMessage decT msg false with
        | .ok update => { st with updates := st.updates ++ [update] }
        | .error _ => st
      | _ => st
    | .itemCompleted e =>
      match e.item with
      | .agentMessage msg =>
        match decodeStructuredMessage decT msg true with
        | .error decodeErr => { st with sharedErr := sharedError.set st.sharedErr (some decodeErr) }
        | .ok update =>
          { st with deliveredFinal := true, updates := st.updates ++ [update] }
      | _ => st
    | .turnCompleted _ => { st with turnCompleted := true }
    | .turnFailed e =>
      let rawErr := GoError.errorsNew e.error.message
      match classifyStructuredOutputError (some rawErr) expectSchema with
      | (schemaErr, true) => { st with sharedErr := sharedError.set st.sharedErr schemaErr }
      | (_, false) => { st with sharedErr := sharedError.set st.sharedErr (some rawErr) }
    | _ => st
  { st with eventsOut := st.eventsOut ++ [event] }

/-- The full `RunStreamedJSON` goroutine: fold over the delivered events,
then record the missing-structured-output error when the turn completed
without a delivered final snapshot. -/
def jsonGoroutine {T : Type} (decT : String → Option T) (expectSchema : Bool)
    (events : List ThreadEvent) : JsonLoopState T :=
  let st := events.foldl (jsonStep decT expectSchema) {}
  if st.turnCompleted && !st.deliveredFinal then
    { st with sharedErr := sharedError.set st.sharedErr (some .noStructuredOutput) }
  else st

/-- Model of `RunStreamedJSONResult.Wait`: the stream's terminal error takes
precedence; otherwise the shared error cell is consulted. -/
def jsonWait (streamErr sharedErr : Option GoError) : Option GoError :=
  match streamErr with
  | some e => some e
  | none => sharedErr

/-! ### Specification-side helper definitions

These definitions are not translations of source functions; they are the
vocabulary in which the verified properties are stated. -/

/-- Recognized top-level event discriminants. -/
def eventTypeNames : List String :=
  ["thread.started", "turn.started", "turn.completed", "turn.failed",
   "item.started", "item.updated", "item.completed", "error"]

/-- Recognized nested item discriminants. -/
def itemTypeNames : List String :=
  ["agent_message", "reasoning", "command_execution", "file_change",
   "mcp_tool_call", "web_search", "todo_list", "error"]

/-- The three item-lifecycle event discriminants. -/
def itemEventTypeNames : List String := ["item.started", "item.updated", "item.completed"]

/-- The thread identifier after replaying the decoded prefix of the line
list: the id of the last `thread.started` event decoded before the first
decode failure, or the initial id when there is none. -/
def lastStartedIdSpec (tid : String) : List RawLine → String
  | [] => tid
  | l :: rest =>
    match decodeThreadEvent l with
    | .error _ => tid
    | .ok (.threadStarted s) => lastStartedIdSpec s.threadId rest
    | .ok _ => lastStartedIdSpec tid rest

/-- True when the segment violates the exactly-one-of-text-or-image rule. -/
def segmentInvalidSpec (s : InputSegment) : Prop :=
  (s.text ≠ "" ∧ s.localImagePath ≠ "") ∨ (s.text = "" ∧ s.localImagePath = "")

instance (s : InputSegment) : Decidable (segmentInvalidSpec s) := by
  unfold segmentInvalidSpec
  infer_instance

/-- The error message `normalizeInput` produces for an invalid segment. -/
def invalidSegmentMessageSpec (i : Nat) (s : InputSegment) : String :=
  if s.text ≠ "" ∧ s.localImagePath ≠ "" then
    s!"input segment {i} must specify either text or image, not both"
  else
    s!"input segment {i} must specify text or image"

/-- Index of the first invalid segment, if any. -/
def firstInvalidIdxSpec : List InputSegment → Option Nat
  | [] => none
  | s :: rest =>
    if segmentInvalidSpec s then some 0
    else (firstInvalidIdxSpec rest).map (· + 1)

/-- The text fragments of a segment list, in order. -/
def textsOfSpec (segments : List InputSegment) : List String :=
  segments.filterMap fun s => if s.text ≠ "" then some s.text else none

/-- The image paths of a segment list, in order (text segments first
claim a segment, matching the switch in `normalizeInput`). -/
def imagesOfSpec (segments : List InputSegment) : List String :=
  segments.filterMap fun s =>
    if s.text ≠ "" then none
    else if s.localImagePath ≠ "" then some s.localImagePath else none

/-- True exactly for `turn.completed` events. -/
def isTurnCompletedEvent : ThreadEvent → Bool
  | .turnCompleted _ => true
  | _ => false

/-- True exactly for `turn.failed` events. -/
def isTurnFailedEvent : ThreadEvent → Bool
  | .turnFailed _ => true
  | _ => false

/-- True exactly for `item.completed` events carrying an agent message. -/
def isCompletedAgentMessage : ThreadEvent → Bool
  | .itemCompleted e =>
    match e.item with
    | .agentMessage _ => true
    | _ => false
  | _ => false

/-- True exactly for `item.completed` agent messages whose text decodes
into `T` (a successful final decode). -/
def isFinalDecodeSuccess {T : Type} (decT : String → Option T) : ThreadEvent → Bool
  | .itemCompleted e =>
    match e.item with
    | .agentMessage msg => (decT msg.text).isSome
    | _ => false
  | _ => false

/-- The schema-vocabulary test of `classifyStructuredOutputError`,
case-insensitively matching "schema", "structured output" or
"validation". -/
def schemaVocabSpec (message : String) : Bool :=
  strContainsSub (strLower message) "schema" ||
    strContainsSub (strLower message) "structured output" ||
    strContainsSub (strLower message) "validation"

/-- A concrete decoder into `Nat` used by witnesses: accepts exactly the
text "42". -/
def decNatSpec : String → Option Nat := fun s => if s = "42" then some 42 else none

/-- A concrete two-edit file-change item used by the fan-out witness. -/
def patchFixtureSpec : FileChangeItem :=
  { id := "p1", type := "file_change",
    changes := [{ path := "a.go", kind := "update" }, { path := "b.go", kind := "add" }],
    status := "completed" }

/-- A concrete agent message whose text does not decode via
`decNatSpec`. -/
def badMsgFixtureSpec : AgentMessageItem :=
  { id := "m1", type := "agent_message", text := "oops" }

/-- A concrete event list for the no-structured-output counterexample: a
failing final decode followed by turn completion. -/
def c4EventsSpec : List ThreadEvent :=
  [.itemCompleted { type := "item.completed", item := .agentMessage badMsgFixtureSpec },
   .turnCompleted { type := "turn.completed", usage := {} }]

/-! ### Shared helper lemmas -/

/-- The thread identifier computed by the producer's line loop is the one
of the last decoded `thread.started` event in the processed prefix. -/
theorem execRun_tid (lines : List RawLine) (st : ProducerState) (runErr : Option GoError) :
    (execRun st lines runErr).1.tid = lastStartedIdSpec st.tid lines := by
  induction lines generalizing st with
  | nil => rfl
  | cons l rest ih =>
    rcases h : decodeThreadEvent l with e | event
    · simp [execRun, handleLine, lastStartedIdSpec, h]
    · cases event <;> simp [execRun, handleLine, lastStartedIdSpec, h, ih]

/-! ### Claim C1: one terminal error per run handle -/

/-- C1 counterexample: `Stream.setErr` itself is not first-write-wins: a
second call on the same handle replaces the recorded error (the second
message wins) and double-closes the `done` channel (a panic in Go). -/
theorem setErr_second_call_overwrites :
    (Stream.setErr (Stream.setErr {} (some (.errorsNew "first"))) (some (.errorsNew "second"))).err
      = some (.errorsNew "second") ∧
    (Stream.setErr (Stream.setErr {} (some (.errorsNew "first"))) (some (.errorsNew "second"))).err
      ≠ some (.errorsNew "first") ∧
    (Stream.setErr (Stream.setErr {} (some (.errorsNew "first"))) (some (.errorsNew "second"))).panicked
      = true := by
  refine ⟨rfl, ?_, rfl⟩
  decide

/-- C1 (amended): at most one terminal error is recorded per run.  The
structured-output `sharedError` cell is genuinely first-write-wins (a
later `set` is a no-op leaving the first error unchanged), and the
producer goroutine of a run calls `Stream.setErr` exactly once — the
deferred `finish` afterwards is a no-op and the stream never reaches the
double-close panic.  `Stream.setErr` itself, however, is last-write-wins
when invoked again (see the counterexample). -/
theorem terminal_error_recorded_once (e1 : GoError) (cur : Option GoError)
    (s : StreamState) (e : Option GoError) (initialTid : String)
    (lines : List RawLine) (runErr : Option GoError) :
    (∀ e2 : GoError, sharedError.set (sharedError.set none (some e1)) (some e2) = some e1) ∧
    sharedError.set (some e1) cur = some e1 ∧
    Stream.finish (Stream.setErr s e) = Stream.setErr s e ∧
    (runStreamedGoroutine initialTid lines runErr).stream.panicked = false ∧
    (runStreamedGoroutine initialTid lines runErr).stream.doneClosed = true := by
  refine ⟨fun e2 => rfl, ?_, ?_, ?_, ?_⟩
  · cases cur <;> rfl
  · simp [Stream.finish, Stream.setErr]
  · simp [runStreamedGoroutine, Stream.finish, Stream.setErr]
  · simp [runStreamedGoroutine, Stream.finish, Stream.setErr]

/-! ### Claim C2: thread identifier assignment -/

/-- C2 counterexample: `Thread.setID` has no first-write guard, so a
second `thread.started` event overwrites the identifier taken from the
first one: after `[thread.started(A), thread.started(B)]` the thread id
is "B", not "A". -/
theorem second_thread_started_overwrites_id :
    (runStreamedGoroutine "" [{ type := "thread.started", threadId := "A" },
        { type := "thread.started", threadId := "B" }] none).tid = "B" ∧
    (runStreamedGoroutine "" [{ type := "thread.started", threadId := "A" },
        { type := "thread.started", threadId := "B" }] none).tid ≠ "A" := by
  refine ⟨rfl, ?_⟩
  decide

/-- C2 (amended): the thread identifier is assigned on every
`thread.started` event — after a run it equals the id of the last
`thread.started` event observed (the initial id when none was observed).
In particular, in a run observing at most one `thread.started` event the
identifier is assigned exactly once, from that event; but a later
`thread.started` event does overwrite it. -/
theorem thread_id_follows_last_started (initialTid : String) (lines : List RawLine)
    (runErr : Option GoError) :
    (runStreamedGoroutine initialTid lines runErr).tid = lastStartedIdSpec initialTid lines := by
  simpa [runStreamedGoroutine] using execRun_tid lines { tid := initialTid } runErr

/-! ### Claim C3: stream-level fatal error "boom" -/

/-- C3: on the event sequence `[thread.started(A), error("boom")]`, the
single-shot run returns the distinguished `ThreadStreamError` carrying
"boom", and the streaming run's wait (after the producer drained the
lines) reports the same `ThreadStreamError`, not a generic error and not
success. -/
theorem stream_error_boom_both_paths :
    run "" "input" [] [{ type := "thread.started", threadId := "A" },
        { type := "error", message := "boom" }] none
      = .error (.threadStream { message := "boom" }) ∧
    Stream.wait (runStreamedGoroutine "" [{ type := "thread.started", threadId := "A" },
        { type := "error", message := "boom" }] none).stream
      = some (.threadStream { message := "boom" }) :=
  ⟨rfl, rfl⟩

/-! ### Claim C8: single-shot happy path -/

/-- C8: on `[thread.started(A), item.completed(agent_message "Hello"),
turn.completed(usage=U)]`, the single-shot run succeeds with final
response "Hello", usage `U`, and exactly the one completed item. -/
theorem single_shot_happy_path (u : Usage) :
    run "" "prompt" []
      [{ type := "thread.started", threadId := "A" },
       { type := "item.completed",
         item := some { type := "agent_message", id := "item_1", text := "Hello" } },
       { type := "turn.completed", usage := u }] none
      = .ok { items := [.agentMessage { id := "item_1", type := "agent_message", text := "Hello" }],
              finalResponse := "Hello", usage := some u } :=
  rfl

/-! ### Claim C7: unknown discriminants fail hard -/

/-- C7: decoding fails hard on unrecognized discriminants at either
stage: an unknown top-level `type` yields an error naming it, and inside
an item-lifecycle event an unknown nested item `type` yields an error
naming that discriminant — never a default or silently skipped variant. -/
theorem unknown_discriminant_hard_failure (line : RawLine) :
    (line.type ∉ eventTypeNames →
      decodeThreadEvent line = .error (.unknownEventType line.type)) ∧
    (∀ r : RawItem, line.item = some r → line.type ∈ itemEventTypeNames →
      r.type ∉ itemTypeNames →
      decodeThreadEvent line = .error (.itemEventWrap line.type (.unknownItemType r.type))) := by
  constructor
  · intro h
    simp only [eventTypeNames, List.mem_cons, List.not_mem_nil, or_false, not_or] at h
    obtain ⟨h1, h2, h3, h4, h5, h6, h7, h8⟩ := h
    simp [decodeThreadEvent, h1, h2, h3, h4, h5, h6, h7, h8]
  · intro r hitem hmem htype
    simp only [itemTypeNames, List.mem_cons, List.not_mem_nil, or_false, not_or] at htype
    obtain ⟨t1, t2, t3, t4, t5, t6, t7, t8⟩ := htype
    have hdec : decodeThreadItem line.item = .error (.unknownItemType r.type) := by
      rw [hitem]
      simp [decodeThreadItem, t1, t2, t3, t4, t5, t6, t7, t8]
    simp only [itemEventTypeNames, List.mem_cons, List.not_mem_nil, or_false] at hmem
    rcases hmem with h | h | h <;>
      simp [decodeThreadEvent, decodeItemEvent, h, hdec]

/-- C7 witness: a concrete bogus top-level discriminant and a concrete
bogus nested item discriminant are both rejected with errors naming
them. -/
theorem unknown_discriminant_hard_failure_witness :
    decodeThreadEvent { type := "mystery.event" }
      = .error (.unknownEventType "mystery.event") ∧
    decodeThreadEvent { type := "item.updated", item := some { type := "gizmo" } }
      = .error (.itemEventWrap "item.updated" (.unknownItemType "gizmo")) := by
  constructor
  · exact (unknown_discriminant_hard_failure { type := "mystery.event" }).1 (by decide)
  · exact (unknown_discriminant_hard_failure
      { type := "item.updated", item := some { type := "gizmo" } }).2
      { type := "gizmo" } rfl (by decide) (by decide)

/-! ### Claim C9: file-change callback fan-out -/

/-- Per-file invocations built from a change list survive the per-file
filter unchanged. -/
theorem filter_fileChange_map (stage : StreamItemStage) (v : FileChangeItem)
    (cs : List FileUpdateChange) :
    (cs.map (fun change => CallbackCall.onFileChange stage v change)).filter
        CallbackCall.isFileChangeCall
      = cs.map (fun change => CallbackCall.onFileChange stage v change) := by
  induction cs with
  | nil => rfl
  | cons a t ih => simp [CallbackCall.isFileChangeCall, ih]

/-- Per-file invocations built from a change list contain no patch-level
invocation. -/
theorem filter_patch_map (stage : StreamItemStage) (v : FileChangeItem)
    (cs : List FileUpdateChange) :
    (cs.map (fun change => CallbackCall.onFileChange stage v change)).filter
        CallbackCall.isPatchCall = [] := by
  induction cs with
  | nil => rfl
  | cons a t ih => simp [CallbackCall.isPatchCall, ih]

/-- C9: for a file-change item with registered patch and per-file
handlers, `handleItem` fires the patch callback first and exactly once,
then exactly one per-file callback per entry of the change list, in list
order, every invocation carrying the parent item's lifecycle stage. -/
theorem file_change_fanout (c : StreamCallbacks) (stage : StreamItemStage)
    (v : FileChangeItem) (hp : c.onPatch = true) (hf : c.onFileChange = true) :
    c.handleItem stage (.fileChange v)
      = .onPatch stage v :: v.changes.map (fun change => .onFileChange stage v change) ∧
    (c.handleItem stage (.fileChange v)).filter CallbackCall.isFileChangeCall
      = v.changes.map (fun change => .onFileChange stage v change) ∧
    ((c.handleItem stage (.fileChange v)).filter CallbackCall.isFileChangeCall).length
      = v.changes.length ∧
    (c.handleItem stage (.fileChange v)).filter CallbackCall.isPatchCall
      = [.onPatch stage v] := by
  have hmain : c.handleItem stage (.fileChange v)
      = .onPatch stage v :: v.changes.map (fun change => .onFileChange stage v change) := by
    simp [StreamCallbacks.handleItem, hp, hf]
  refine ⟨hmain, ?_, ?_, ?_⟩
  · rw [hmain]
    simp [List.filter_cons, CallbackCall.isFileChangeCall, filter_fileChange_map]
  · rw [hmain]
    simp [List.filter_cons, CallbackCall.isFileChangeCall, filter_fileChange_map]
  · rw [hmain]
    simp [List.filter_cons, CallbackCall.isPatchCall, filter_patch_map]

/-- C9 witness: a two-edit file-change item with both handlers registered
produces the patch call once, then the two per-file calls in list order,
all at the same stage. -/
theorem file_change_fanout_witness :
    ({ onPatch := true, onFileChange := true } : StreamCallbacks).handleItem "completed"
        (.fileChange patchFixtureSpec)
      = [.onPatch "completed" patchFixtureSpec,
         .onFileChange "completed" patchFixtureSpec { path := "a.go", kind := "update" },
         .onFileChange "completed" patchFixtureSpec { path := "b.go", kind := "add" }] := by
  have h := (file_change_fanout { onPatch := true, onFileChange := true } "completed"
    patchFixtureSpec rfl rfl).1
  rw [h]
  rfl

/-! ### Claim C10: input normalization -/

/-- The segment loop on an all-valid list accumulates the text fragments
and image paths in order. -/
theorem normalizeInputLoop_valid (segments : List InputSegment) :
    ∀ (i : Nat) (ps is : List String),
    (∀ s ∈ segments, ¬ segmentInvalidSpec s) →
    normalizeInputLoop i segments ps is
      = .ok (ps ++ textsOfSpec segments, is ++ imagesOfSpec segments) := by
  induction segments with
  | nil =>
    intro i ps is _
    simp [normalizeInputLoop, textsOfSpec, imagesOfSpec]
  | cons seg rest ih =>
    intro i ps is h
    have hseg := h seg (List.mem_cons_self seg rest)
    have hrest : ∀ s ∈ rest, ¬ segmentInvalidSpec s :=
      fun s hs => h s (List.mem_cons_of_mem seg hs)
    simp only [segmentInvalidSpec, not_or, not_and_or, not_not] at hseg
    obtain ⟨h1, h2⟩ := hseg
    by_cases hat : seg.text = ""
    · have hai : seg.localImagePath ≠ "" := by
        rcases h2 with hx | hx
        · exact absurd hat hx
        · exact hx
      rw [show normalizeInputLoop i (seg :: rest) ps is
          = normalizeInputLoop (i + 1) rest ps (is ++ [seg.localImagePath]) from by
        simp [normalizeInputLoop, hat, hai]]
      rw [ih (i + 1) ps (is ++ [seg.localImagePath]) hrest]
      simp [textsOfSpec, imagesOfSpec, hat, hai]
    · have hai : seg.localImagePath = "" := by
        rcases h1 with hx | hx
        · exact absurd hx hat
        · exact hx
      rw [show normalizeInputLoop i (seg :: rest) ps is
          = normalizeInputLoop (i + 1) rest (ps ++ [seg.text]) is from by
        simp [normalizeInputLoop, hat, hai]]
      rw [ih (i + 1) (ps ++ [seg.text]) is hrest]
      simp [textsOfSpec, imagesOfSpec, hat]

/-- The segment loop fails at the first invalid segment, naming its
index. -/
theorem normalizeInputLoop_invalid (segments : List InputSegment) :
    ∀ (i : Nat) (ps is : List String) (j : Nat) (s : InputSegment),
    firstInvalidIdxSpec segments = some j → segments.get? j = some s →
    normalizeInputLoop i segments ps is
      = .error (.errorsNew (invalidSegmentMessageSpec (i + j) s)) := by
  induction segments with
  | nil =>
    intro i ps is j s hj _
    simp [firstInvalidIdxSpec] at hj
  | cons seg rest ih =>
    intro i ps is j s hj hs
    by_cases hinv : segmentInvalidSpec seg
    · simp only [firstInvalidIdxSpec, hinv, if_true, Option.some.injEq] at hj
      subst hj
      simp only [List.get?] at hs
      obtain rfl : seg = s := Option.some.inj hs
      by_cases hab : seg.text ≠ "" ∧ seg.localImagePath ≠ ""
      · simp [normalizeInputLoop, hab, invalidSegmentMessageSpec]
      · have hnn : seg.text = "" ∧ seg.localImagePath = "" := by
          rcases hinv with hx | hx
          · exact absurd hx hab
          · exact hx
        simp [normalizeInputLoop, hab, hnn, invalidSegmentMessageSpec]
    · simp only [firstInvalidIdxSpec, hinv, if_false, Option.map_eq_some'] at hj
      obtain ⟨k, hk, rfl⟩ := hj
      simp only [List.get?] at hs
      simp only [segmentInvalidSpec, not_or, not_and_or, not_not] at hinv
      obtain ⟨h1, h2⟩ := hinv
      have harith : i + 1 + k = i + (k + 1) := by omega
      by_cases hat : seg.text = ""
      · have hai : seg.localImagePath ≠ "" := by
          rcases h2 with hx | hx
          · exact absurd hat hx
          · exact hx
        rw [show normalizeInputLoop i (seg :: rest) ps is
            = normalizeInputLoop (i + 1) rest ps (is ++ [seg.localImagePath]) from by
          simp [normalizeInputLoop, hat, hai]]
        rw [ih (i + 1) ps (is ++ [seg.localImagePath]) k s hk hs, harith]
      · have hai : seg.localImagePath = "" := by
          rcases h1 with hx | hx
          · exact absurd hx hat
          · exact hx
        rw [show normalizeInputLoop i (seg :: rest) ps is
            = normalizeInputLoop (i + 1) rest (ps ++ [seg.text]) is from by
          simp [normalizeInputLoop, hat, hai]]
        rw [ih (i + 1) (ps ++ [seg.text]) is k s hk hs, harith]

/-- C10: for an empty segment list `normalizeInput` keeps the base prompt
unchanged; the first segment setting both or neither of text and image
makes it fail with an error naming that segment's index (and the
streaming entry point then returns before starting any process); and for
a valid list the text fragments joined with a blank line replace the
base prompt (which survives only when no text segment is present) while
image paths are collected in their original order. -/
theorem normalizeInput_spec (base : String) (segments : List InputSegment)
    (lines : List RawLine) (runErr : Option GoError) (initialTid : String) :
    (segments = [] → normalizeInput base segments = .ok { prompt := base, images := [] }) ∧
    (∀ j s, firstInvalidIdxSpec segments = some j → segments.get? j = some s →
      normalizeInput base segments = .error (.errorsNew (invalidSegmentMessageSpec j s)) ∧
      runStreamed initialTid base segments lines runErr
        = .error (.errorsNew (invalidSegmentMessageSpec j s))) ∧
    ((∀ s ∈ segments, ¬ segmentInvalidSpec s) →
      normalizeInput base segments
        = .ok { prompt := if (textsOfSpec segments).isEmpty then base
                  else stringsJoin "\n\n" (textsOfSpec segments),
                images := imagesOfSpec segments }) := by
  refine ⟨?_, ?_, ?_⟩
  · intro h
    subst h
    rfl
  · intro j s hj hs
    have hne : segments.isEmpty = false := by
      cases segments
      · simp [firstInvalidIdxSpec] at hj
      · rfl
    have hloop := normalizeInputLoop_invalid segments 0 [] [] j s hj hs
    rw [Nat.zero_add] at hloop
    have hnorm : normalizeInput base segments
        = .error (.errorsNew (invalidSegmentMessageSpec j s)) := by
      simp only [normalizeInput, hne, Bool.false_eq_true, if_false, hloop]
    exact ⟨hnorm, by simp only [runStreamed, hnorm]⟩
  · intro h
    cases hsegs : segments with
    | nil =>
      simp [normalizeInput, textsOfSpec, imagesOfSpec, stringsJoin]
    | cons seg rest =>
      subst hsegs
      have hloop := normalizeInputLoop_valid (seg :: rest) 0 [] [] h
      simp only [List.nil_append] at hloop
      simp only [normalizeInput, List.isEmpty_cons, Bool.false_eq_true, if_false, hloop]

/-- C10 witness: the empty list keeps the base prompt; a mixed valid list
joins the texts and collects the image; an empty segment at index 1 is
rejected with its index, and the streaming entry point propagates the
same error. -/
theorem normalizeInput_spec_witness :
    normalizeInput "base" [] = .ok { prompt := "base", images := [] } ∧
    normalizeInput "base" [{ text := "a" }, { localImagePath := "img.png" }, { text := "b" }]
      = .ok { prompt := "a\n\nb", images := ["img.png"] } ∧
    normalizeInput "base" [{ text := "x" }, {}]
      = .error (.errorsNew "input segment 1 must specify text or image") ∧
    runStreamed "" "base" [{ text := "x" }, {}] [] none
      = .error (.errorsNew "input segment 1 must specify text or image") := by
  refine ⟨(normalizeInput_spec "base" [] [] none "").1 rfl, ?_, ?_, ?_⟩
  · have h := (normalizeInput_spec "base"
      [{ text := "a" }, { localImagePath := "img.png" }, { text := "b" }] [] none "").2.2
      (by decide)
    rw [h]
    rfl
  · have h := ((normalizeInput_spec "base" [{ text := "x" }, {}] [] none "").2.1 1 {}
      (by decide) (by decide)).1
    rw [h]
    rfl
  · have h := ((normalizeInput_spec "base" [{ text := "x" }, {}] [] none "").2.1 1 {}
      (by decide) (by decide)).2
    rw [h]
    rfl

/-! ### Claim C5: partial decode failures are swallowed, final ones are fatal -/

/-- C5: in the structured-output extractor, an `item.updated` agent
message whose text fails to decode emits no snapshot and records no
error, while an `item.completed` agent message whose text fails to
decode also emits no snapshot but records the decode failure as the
run's terminal error under first-write-wins — a run can only fail on a
final decode, never on a partial one. -/
theorem nonfinal_decode_failure_swallowed {T : Type} (decT : String → Option T)
    (expectSchema : Bool) (st : JsonLoopState T) (updType complType : String)
    (msg : AgentMessageItem) (h : decT msg.text = none) :
    (jsonStep decT expectSchema st
        (.itemUpdated { type := updType, item := .agentMessage msg })).updates = st.updates ∧
    (jsonStep decT expectSchema st
        (.itemUpdated { type := updType, item := .agentMessage msg })).sharedErr
      = st.sharedErr ∧
    (jsonStep decT expectSchema st
        (.itemCompleted { type := complType, item := .agentMessage msg })).updates
      = st.updates ∧
    (jsonStep decT expectSchema st
        (.itemCompleted { type := complType, item := .agentMessage msg })).sharedErr
      = sharedError.set st.sharedErr
          (some (.decodeStructuredOutput (.jsonUnmarshal msg.text))) ∧
    (st.sharedErr = none →
      (jsonStep decT expectSchema st
          (.itemCompleted { type := complType, item := .agentMessage msg })).sharedErr
        = some (.decodeStructuredOutput (.jsonUnmarshal msg.text))) ∧
    (∀ e0 : GoError, st.sharedErr = some e0 →
      (jsonStep decT expectSchema st
          (.itemCompleted { type := complType, item := .agentMessage msg })).sharedErr
        = some e0) := by
  refine ⟨?_, ?_, ?_, ?_, ?_, ?_⟩
  · simp [jsonStep, decodeStructuredMessage, h]
  · simp [jsonStep, decodeStructuredMessage, h]
  · simp [jsonStep, decodeStructuredMessage, h]
  · simp [jsonStep, decodeStructuredMessage, h]
  · intro hn
    simp [jsonStep, decodeStructuredMessage, h, sharedError.set, hn]
  · intro e0 hs
    simp [jsonStep, decodeStructuredMessage, h, sharedError.set, hs]

/-- C5 witness: with the concrete decoder `decNatSpec` and the text
"oops", the partial failure leaves the state untouched and the final
failure records the decode error. -/
theorem nonfinal_decode_failure_swallowed_witness :
    (jsonStep decNatSpec true ({} : JsonLoopState Nat)
        (.itemUpdated { type := "item.updated", item := .agentMessage badMsgFixtureSpec })).updates
      = [] ∧
    (jsonStep decNatSpec true ({} : JsonLoopState Nat)
        (.itemUpdated { type := "item.updated", item := .agentMessage badMsgFixtureSpec })).sharedErr
      = none ∧
    (jsonStep decNatSpec true ({} : JsonLoopState Nat)
        (.itemCompleted
          { type := "item.completed", item := .agentMessage badMsgFixtureSpec })).sharedErr
      = some (.decodeStructuredOutput (.jsonUnmarshal "oops")) := by
  have h := nonfinal_decode_failure_swallowed decNatSpec true ({} : JsonLoopState Nat)
    "item.updated" "item.completed" badMsgFixtureSpec (by decide)
  exact ⟨h.1, h.2.1, h.2.2.2.2.1 rfl⟩

/-! ### Claim C6: turn-failed schema classification -/

/-- C6: when a schema was supplied or inferred, a `turn.failed` whose
message is empty or contains (case-insensitively) "schema", "structured
output" or "validation" is recorded as the distinguished
`SchemaViolationError`; any other failure message is recorded as the
generic turn failure, unchanged. -/
theorem turn_failed_schema_classification {T : Type} (decT : String → Option T)
    (st : JsonLoopState T) (evType m : String) (hnone : st.sharedErr = none) :
    classifyStructuredOutputError (some (.errorsNew m)) true
      = (if m = "" ∨ schemaVocabSpec m = true then (some (.schemaViolation m), true)
         else (none, false)) ∧
    (jsonStep decT true st (.turnFailed { type := evType, error := { message := m } })).sharedErr
      = some (if m = "" ∨ schemaVocabSpec m = true then .schemaViolation m
              else .errorsNew m) := by
  by_cases hm : m = ""
  · subst hm
    refine ⟨?_, ?_⟩
    · simp [classifyStructuredOutputError, GoError.message]
    · simp [jsonStep, classifyStructuredOutputError, GoError.message, hnone, sharedError.set]
  · by_cases hv : schemaVocabSpec m = true
    · have hv' : (strContainsSub (strLower m) "schema"
          || strContainsSub (strLower m) "structured output"
          || strContainsSub (strLower m) "validation") = true := by
        simpa [schemaVocabSpec] using hv
      refine ⟨?_, ?_⟩
      · simp [classifyStructuredOutputError, GoError.message, hm, hv', hv]
      · simp [jsonStep, classifyStructuredOutputError, GoError.message, hm, hv', hv,
          hnone, sharedError.set]
    · have hv' : (strContainsSub (strLower m) "schema"
          || strContainsSub (strLower m) "structured output"
          || strContainsSub (strLower m) "validation") = false := by
        simpa [schemaVocabSpec] using hv
      refine ⟨?_, ?_⟩
      · simp [classifyStructuredOutputError, GoError.message, hm, hv', hv]
      · simp [jsonStep, classifyStructuredOutputError, GoError.message, hm, hv', hv,
          hnone, sharedError.set]

/-- C6 witness: "Schema mismatch" (vocabulary hit, case-insensitive) is
recorded as a schema violation carrying the original message, while
"boom" propagates as the generic failure. -/
theorem turn_failed_schema_classification_witness :
    (jsonStep decNatSpec true ({} : JsonLoopState Nat)
        (.turnFailed { type := "turn.failed", error := { message := "Schema mismatch" } })).sharedErr
      = some (.schemaViolation "Schema mismatch") ∧
    (jsonStep decNatSpec true ({} : JsonLoopState Nat)
        (.turnFailed { type := "turn.failed", error := { message := "boom" } })).sharedErr
      = some (.errorsNew "boom") := by
  constructor
  · have h := (turn_failed_schema_classification decNatSpec ({} : JsonLoopState Nat)
      "turn.failed" "Schema mismatch" rfl).2
    rw [h]
    decide
  · have h := (turn_failed_schema_classification decNatSpec ({} : JsonLoopState Nat)
      "turn.failed" "boom" rfl).2
    rw [h]
    decide

/-! ### Claim C4: missing structured output -/

/-- One extractor step sets the turn-completed flag exactly on
`turn.completed` events and otherwise preserves it. -/
theorem jsonStep_turnCompleted_flag {T : Type} (decT : String → Option T) (es : Bool)
    (st : JsonLoopState T) (e : ThreadEvent) :
    (jsonStep decT es st e).turnCompleted
      = (st.turnCompleted || isTurnCompletedEvent e) := by
  cases e with
  | itemUpdated ev =>
    rcases hv : ev.item with msg | r | c | f | mt | w | td | er
    · cases hd : decT msg.text <;>
        simp [jsonStep, hv, isTurnCompletedEvent, decodeStructuredMessage, hd]
    all_goals simp [jsonStep, hv, isTurnCompletedEvent]
  | itemCompleted ev =>
    rcases hv : ev.item with msg | r | c | f | mt | w | td | er
    · cases hd : decT msg.text <;>
        simp [jsonStep, hv, isTurnCompletedEvent, decodeStructuredMessage, hd]
    all_goals simp [jsonStep, hv, isTurnCompletedEvent]
  | turnFailed ev =>
    rcases hc : classifyStructuredOutputError (some (.errorsNew ev.error.message)) es
      with ⟨se, ok⟩
    cases ok <;> simp [jsonStep, hc, isTurnCompletedEvent]
  | threadStarted ev => simp [jsonStep, isTurnCompletedEvent]
  | turnStarted ev => simp [jsonStep, isTurnCompletedEvent]
  | turnCompleted ev => simp [jsonStep, isTurnCompletedEvent]
  | itemStarted ev => simp [jsonStep, isTurnCompletedEvent]
  | threadError ev => simp [jsonStep, isTurnCompletedEvent]

/-- One extractor step sets the delivered-final flag exactly on a
successful final decode and otherwise preserves it. -/
theorem jsonStep_deliveredFinal_flag {T : Type} (decT : String → Option T) (es : Bool)
    (st : JsonLoopState T) (e : ThreadEvent) :
    (jsonStep decT es st e).deliveredFinal
      = (st.deliveredFinal || isFinalDecodeSuccess decT e) := by
  cases e with
  | itemUpdated ev =>
    rcases hv : ev.item with msg | r | c | f | mt | w | td | er
    · cases hd : decT msg.text <;>
        simp [jsonStep, hv, isFinalDecodeSuccess, decodeStructuredMessage, hd]
    all_goals simp [jsonStep, hv, isFinalDecodeSuccess]
  | itemCompleted ev =>
    rcases hv : ev.item with msg | r | c | f | mt | w | td | er
    · cases hd : decT msg.text <;>
        simp [jsonStep, hv, isFinalDecodeSuccess, decodeStructuredMessage, hd]
    all_goals simp [jsonStep, hv, isFinalDecodeSuccess]
  | turnFailed ev =>
    rcases hc : classifyStructuredOutputError (some (.errorsNew ev.error.message)) es
      with ⟨se, ok⟩
    cases ok <;> simp [jsonStep, hc, isFinalDecodeSuccess]
  | threadStarted ev => simp [jsonStep, isFinalDecodeSuccess]
  | turnStarted ev => simp [jsonStep, isFinalDecodeSuccess]
  | turnCompleted ev => simp [jsonStep, isFinalDecodeSuccess]
  | itemStarted ev => simp [jsonStep, isFinalDecodeSuccess]
  | threadError ev => simp [jsonStep, isFinalDecodeSuccess]

/-- One extractor step leaves the shared error cell untouched unless the
event is an `item.completed` agent message or a `turn.failed`. -/
theorem jsonStep_sharedErr_untouched {T : Type} (decT : String → Option T) (es : Bool)
    (st : JsonLoopState T) (e : ThreadEvent)
    (h1 : isCompletedAgentMessage e = false) (h2 : isTurnFailedEvent e = false) :
    (jsonStep decT es st e).sharedErr = st.sharedErr := by
  cases e with
  | itemUpdated ev =>
    rcases hv : ev.item with msg | r | c | f | mt | w | td | er
    · cases hd : decT msg.text <;>
        simp [jsonStep, hv, decodeStructuredMessage, hd]
    all_goals simp [jsonStep, hv]
  | itemCompleted ev =>
    rcases hv : ev.item with msg | r | c | f | mt | w | td | er
    · exact absurd h1 (by simp [isCompletedAgentMessage, hv])
    all_goals simp [jsonStep, hv]
  | turnFailed ev => exact absurd h2 (by simp [isTurnFailedEvent])
  | threadStarted ev => simp [jsonStep]
  | turnStarted ev => simp [jsonStep]
  | turnCompleted ev => simp [jsonStep]
  | itemStarted ev => simp [jsonStep]
  | threadError ev => simp [jsonStep]

/-- Folding the extractor over a list sets the turn-completed flag
exactly when the list contains a `turn.completed` event. -/
theorem foldl_turnCompleted_flag {T : Type} (decT : String → Option T) (es : Bool)
    (events : List ThreadEvent) :
    ∀ st : JsonLoopState T,
    (events.foldl (jsonStep decT es) st).turnCompleted
      = (st.turnCompleted || events.any isTurnCompletedEvent) := by
  induction events with
  | nil => intro st; simp
  | cons e rest ih =>
    intro st
    simp only [List.foldl_cons, List.any_cons]
    rw [ih, jsonStep_turnCompleted_flag]
    cases st.turnCompleted <;> simp

/-- Folding the extractor over a list sets the delivered-final flag
exactly when some event is a successful final decode. -/
theorem foldl_deliveredFinal_flag {T : Type} (decT : String → Option T) (es : Bool)
    (events : List ThreadEvent) :
    ∀ st : JsonLoopState T,
    (events.foldl (jsonStep decT es) st).deliveredFinal
      = (st.deliveredFinal || events.any (isFinalDecodeSuccess decT)) := by
  induction events with
  | nil => intro st; simp
  | cons e rest ih =>
    intro st
    simp only [List.foldl_cons, List.any_cons]
    rw [ih, jsonStep_deliveredFinal_flag]
    cases st.deliveredFinal <;> simp

/-- Folding the extractor over events containing no completed agent
message and no turn failure leaves the shared error cell untouched. -/
theorem foldl_sharedErr_untouched {T : Type} (decT : String → Option T) (es : Bool)
    (events : List ThreadEvent) :
    ∀ st : JsonLoopState T,
    (∀ e ∈ events, isCompletedAgentMessage e = false ∧ isTurnFailedEvent e = false) →
    (events.foldl (jsonStep decT es) st).sharedErr = st.sharedErr := by
  induction events with
  | nil => intro st _; rfl
  | cons e rest ih =>
    intro st h
    simp only [List.foldl_cons]
    rw [ih _ (fun x hx => h x (List.mem_cons_of_mem e hx)),
      jsonStep_sharedErr_untouched decT es st e (h e (List.mem_cons_self e rest)).1
        (h e (List.mem_cons_self e rest)).2]

/-- C4 counterexample: with a `turn.completed` observed and no
`item.completed` agent message ever decoding successfully, the wait
result is NOT always the distinguished no-structured-output error: a
failing final decode is recorded first, so the run fails with the decode
error instead. -/
theorem no_structured_output_error_counterexample :
    c4EventsSpec.any isTurnCompletedEvent = true ∧
    c4EventsSpec.any (isFinalDecodeSuccess decNatSpec) = false ∧
    jsonWait none (jsonGoroutine decNatSpec true c4EventsSpec).sharedErr
      = some (.decodeStructuredOutput (.jsonUnmarshal "oops")) ∧
    jsonWait none (jsonGoroutine decNatSpec true c4EventsSpec).sharedErr
      ≠ some .noStructuredOutput := by
  refine ⟨rfl, rfl, rfl, ?_⟩
  decide

/-- C4 (amended): if a `turn.completed` event is observed and no
`item.completed` agent message ever decoded successfully into T, the
wait operation never reports success: it reports the distinguished
no-structured-output error when no other terminal error was recorded
first (no failing final decode, no turn failure), and the
first-recorded terminal error otherwise. -/
theorem wait_fails_without_final_snapshot {T : Type} (decT : String → Option T)
    (expectSchema : Bool) (events : List ThreadEvent)
    (h1 : events.any isTurnCompletedEvent = true)
    (h2 : events.any (isFinalDecodeSuccess decT) = false) :
    (jsonGoroutine decT expectSchema events).sharedErr.isSome = true ∧
    jsonWait none (jsonGoroutine decT expectSchema events).sharedErr ≠ none ∧
    ((∀ e ∈ events, isCompletedAgentMessage e = false ∧ isTurnFailedEvent e = false) →
      (jsonGoroutine decT expectSchema events).sharedErr = some .noStructuredOutput) := by
  have htc : (events.foldl (jsonStep decT expectSchema)
      ({} : JsonLoopState T)).turnCompleted = true := by
    rw [foldl_turnCompleted_flag]
    simp [h1]
  have hdf : (events.foldl (jsonStep decT expectSchema)
      ({} : JsonLoopState T)).deliveredFinal = false := by
    rw [foldl_deliveredFinal_flag]
    simp [h2]
  have hgor : (jsonGoroutine decT expectSchema events).sharedErr
      = sharedError.set
          (events.foldl (jsonStep decT expectSchema) ({} : JsonLoopState T)).sharedErr
          (some .noStructuredOutput) := by
    simp only [jsonGoroutine, htc, hdf, Bool.not_false, Bool.and_self, if_true]
  have hsome : (jsonGoroutine decT expectSchema events).sharedErr.isSome = true := by
    rw [hgor]
    cases hcur : (events.foldl (jsonStep decT expectSchema)
        ({} : JsonLoopState T)).sharedErr <;> simp [sharedError.set, hcur]
  refine ⟨hsome, ?_, ?_⟩
  · intro hn
    have hn' : (jsonGoroutine decT expectSchema events).sharedErr = none := hn
    rw [hn'] at hsome
    cases hsome
  · intro hno
    rw [hgor, foldl_sharedErr_untouched decT expectSchema events _ hno]
    rfl

/-- C4 witness: a run observing only `turn.completed` reports the
distinguished no-structured-output error. -/
theorem wait_fails_without_final_snapshot_witness :
    (jsonGoroutine decNatSpec true
        [ThreadEvent.turnCompleted { type := "turn.completed", usage := {} }]).sharedErr
      = some .noStructuredOutput :=
  (wait_fails_without_final_snapshot decNatSpec true
    [.turnCompleted { type := "turn.completed", usage := {} }] (by decide) (by decide)).2.2
    (by decide)

end Godex
